import Mathlib

/-!
Verification of the ABCFold container bind-path allocator, command builders and
run drivers (`abcfold/boltz/run_boltz.py` and `abcfold/chai1/run_chai1.py`).

Filesystem paths are modelled as lists of components (as `pathlib.Path` stores
them); `resolve` (filesystem canonicalisation) and existence checks are
abstract parameters, since they depend on the ambient filesystem.  Subprocess
execution is abstracted by a function from seed to exit code / stdout / stderr.
Side effects (yaml writes, directory creation, error-log writes, process
spawns) are recorded as an explicit event trace.
-/

namespace ABCFold

/-! ### Injectivity of `Nat.repr`

The allocator disambiguates mount names with the Python f-string
`f"{preferred}_{counter}"`, whose Lean counterpart is `Nat.repr`.  We prove
`Nat.repr` injective by relating the fuel-based `Nat.toDigitsCore` from core to
Mathlib's `Nat.digits` and using the `Nat.ofDigits` round trip. -/

theorem toDigitsCore_eq_digits :
    ∀ (n : ℕ), 0 < n → ∀ (f : ℕ) (ds : List Char), n < f →
      Nat.toDigitsCore 10 f n ds
        = ((Nat.digits 10 n).map Nat.digitChar).reverse ++ ds := by
  intro n
  induction n using Nat.strong_induction_on with
  | _ n ih =>
    intro hn f ds hf
    match f with
    | 0 => omega
    | f + 1 =>
      have hdig : Nat.digits 10 n = n % 10 :: Nat.digits 10 (n / 10) :=
        Nat.digits_def' (by norm_num) hn
      by_cases hdiv : n / 10 = 0
      · have : Nat.toDigitsCore 10 (f + 1) n ds = Nat.digitChar (n % 10) :: ds := by
          simp [Nat.toDigitsCore, hdiv]
        rw [this, hdig, hdiv]
        simp
      · have hstep : Nat.toDigitsCore 10 (f + 1) n ds
            = Nat.toDigitsCore 10 f (n / 10) (Nat.digitChar (n % 10) :: ds) := by
          simp [Nat.toDigitsCore, hdiv]
        have hlt : n / 10 < n := Nat.div_lt_self hn (by norm_num)
        have hrec := ih (n / 10) hlt (Nat.pos_of_ne_zero hdiv)
          f (Nat.digitChar (n % 10) :: ds) (by omega)
        rw [hstep, hrec, hdig]
        simp

theorem toDigits_eq_digits (n : ℕ) (hn : 0 < n) :
    Nat.toDigits 10 n = ((Nat.digits 10 n).map Nat.digitChar).reverse := by
  have := toDigitsCore_eq_digits n hn (n + 1) [] (Nat.lt_succ_self n)
  simpa [Nat.toDigits] using this

/-- Left inverse of `Nat.digitChar` on decimal digits. -/
def charToDigit (c : Char) : ℕ :=
  if c = '0' then 0 else if c = '1' then 1 else if c = '2' then 2 else
  if c = '3' then 3 else if c = '4' then 4 else if c = '5' then 5 else
  if c = '6' then 6 else if c = '7' then 7 else if c = '8' then 8 else 9

theorem charToDigit_digitChar : ∀ a < 10, charToDigit (Nat.digitChar a) = a := by
  decide

theorem decode_toDigits (n : ℕ) :
    Nat.ofDigits 10 ((Nat.toDigits 10 n).reverse.map charToDigit) = n := by
  rcases Nat.eq_zero_or_pos n with h0 | hp
  · subst h0
    decide
  · rw [toDigits_eq_digits n hp, List.reverse_reverse, List.map_map]
    have hcongr : (Nat.digits 10 n).map (charToDigit ∘ Nat.digitChar)
        = (Nat.digits 10 n).map id := by
      apply List.map_congr_left
      intro d hd
      exact charToDigit_digitChar d (Nat.digits_lt_base (by norm_num) hd)
    rw [hcongr, List.map_id, Nat.ofDigits_digits]

theorem repr_injective : Function.Injective Nat.repr := by
  intro m n h
  have hdata : Nat.toDigits 10 m = Nat.toDigits 10 n := by
    have : (Nat.toDigits 10 m).asString = (Nat.toDigits 10 n).asString := h
    exact List.asString_inj.mp this
  have hm := decode_toDigits m
  have hn := decode_toDigits n
  rw [hdata, hn] at hm
  exact hm.symm

theorem repr_length_pos (n : ℕ) : 1 ≤ (Nat.repr n).length := by
  rcases Nat.eq_zero_or_pos n with h0 | hp
  · subst h0; decide
  · show 1 ≤ (Nat.toDigits 10 n).asString.length
    rw [List.length_asString, toDigits_eq_digits n hp]
    simp only [List.length_reverse, List.length_map]
    have hne : Nat.digits 10 n ≠ [] :=
      Nat.digits_ne_nil_iff_ne_zero.mpr (Nat.pos_iff_ne_zero.mp hp)
    cases hd : Nat.digits 10 n with
    | nil => exact absurd hd hne
    | cons a l => simp

/-! ### The bind-path allocator (`ensure_bind` in both modules)

Host paths are lists of components, as `pathlib.Path` stores them.  The
insertion-ordered Python `dict[Path, str]` is an association list. -/

/-- A filesystem path, as its list of components (`pathlib.Path.parts`).
An absolute path has `""` as its first component, so that
`pathStr ["", "abs", "out"] = "/abs/out"`. -/
abbrev HostPath := List String

/-- `str(path)`: join the components with `/` (posix rendering). -/
def pathStr (p : HostPath) : String := String.intercalate "/" p

/-- Successive values of the Python loop variable `dest`:
`dest` starts as `preferred` (counter 1), and on the counter's `k`-th value
(`k ≥ 2`) it is the f-string `f"{preferred}_{k}"`. -/
def destCand (preferred : String) (c : ℕ) : String :=
  if c = 1 then preferred else preferred ++ "_" ++ Nat.repr c

/-- The `while dest in bind_map.values(): counter += 1; dest = f"{preferred}_{counter}"`
loop of `ensure_bind`, with explicit fuel (the loop provably terminates within
`vals.length + 1` iterations; see `freshDest_not_mem`). -/
def destLoop (vals : List String) (preferred : String) :
    ℕ → ℕ → String → String
  | 0, _, dest => dest
  | f + 1, counter, dest =>
      if dest ∈ vals then
        destLoop vals preferred f (counter + 1)
          (preferred ++ "_" ++ Nat.repr (counter + 1))
      else dest

/-- The mount name `ensure_bind` picks for a fresh host path, given the mount
names already in use (`bind_map.values()` in insertion order). -/
def freshDest (vals : List String) (preferred : String) : String :=
  destLoop vals preferred (vals.length + 1) 1 preferred

theorem destCand_one (p : String) : destCand p 1 = p := rfl

theorem destCand_of_ne_one (p : String) {c : ℕ} (hc : c ≠ 1) :
    destCand p c = p ++ "_" ++ Nat.repr c := by
  simp [destCand, hc]

theorem destCand_inj {p : String} {a b : ℕ} (ha : 1 ≤ a) (hb : 1 ≤ b)
    (h : destCand p a = destCand p b) : a = b := by
  by_cases h1 : a = 1
  · by_cases h2 : b = 1
    · omega
    · exfalso
      rw [h1, destCand_one, destCand_of_ne_one p h2] at h
      have hlen := congrArg String.length h
      rw [String.length_append, String.length_append] at hlen
      have := repr_length_pos b
      have : ("_" : String).length = 1 := rfl
      omega
  · by_cases h2 : b = 1
    · exfalso
      rw [h2, destCand_one, destCand_of_ne_one p h1] at h
      have hlen := congrArg String.length h
      rw [String.length_append, String.length_append] at hlen
      have := repr_length_pos a
      have : ("_" : String).length = 1 := rfl
      omega
    · rw [destCand_of_ne_one p h1, destCand_of_ne_one p h2] at h
      have hdata := congrArg String.data h
      simp only [String.data_append] at hdata
      have hrepr : (Nat.repr a).data = (Nat.repr b).data :=
        List.append_cancel_left hdata
      exact repr_injective (String.ext hrepr)

theorem nodup_subset_length {l₁ l₂ : List String} (h1 : l₁.Nodup)
    (h2 : ∀ x ∈ l₁, x ∈ l₂) : l₁.length ≤ l₂.length := by
  calc l₁.length = l₁.toFinset.card := (List.toFinset_card_of_nodup h1).symm
    _ ≤ l₂.toFinset.card := by
        apply Finset.card_le_card
        intro x hx
        rw [List.mem_toFinset] at hx ⊢
        exact h2 x hx
    _ ≤ l₂.length := l₂.toFinset_card_le

theorem exists_free_cand (vals : List String) (p : String) (c : ℕ)
    (hc : 1 ≤ c) : ∃ k, c ≤ k ∧ k ≤ c + vals.length ∧ destCand p k ∉ vals := by
  by_contra hnone
  push_neg at hnone
  have hsub : ∀ x ∈ (List.range (vals.length + 1)).map
      (fun i => destCand p (c + i)), x ∈ vals := by
    intro x hx
    rw [List.mem_map] at hx
    obtain ⟨i, hi, rfl⟩ := hx
    rw [List.mem_range] at hi
    exact hnone (c + i) (by omega) (by omega)
  have hnodup : ((List.range (vals.length + 1)).map
      (fun i => destCand p (c + i))).Nodup := by
    apply List.Nodup.map_on _ (List.nodup_range _)
    intro x _ y _ hxy
    have := destCand_inj (p := p) (by omega) (by omega) hxy
    omega
  have := nodup_subset_length hnodup hsub
  simp only [List.length_map, List.length_range] at this
  omega

theorem destLoop_not_mem (vals : List String) (p : String) :
    ∀ (f c : ℕ), 1 ≤ c →
      (∃ k, c ≤ k ∧ k ≤ c + f ∧ destCand p k ∉ vals) →
      destLoop vals p f c (destCand p c) ∉ vals := by
  intro f
  induction f with
  | zero =>
      intro c _ hex
      obtain ⟨k, hk1, hk2, hk3⟩ := hex
      have : k = c := by omega
      subst this
      simpa [destLoop] using hk3
  | succ f ih =>
      intro c hc hex
      by_cases hmem : destCand p c ∈ vals
      · have hne : c + 1 ≠ 1 := by omega
        have hrw : destLoop vals p (f + 1) c (destCand p c)
            = destLoop vals p f (c + 1) (destCand p (c + 1)) := by
          rw [destCand_of_ne_one p hne]
          simp [destLoop, hmem]
        rw [hrw]
        apply ih (c + 1) (by omega)
        obtain ⟨k, hk1, hk2, hk3⟩ := hex
        refine ⟨k, ?_, by omega, hk3⟩
        rcases Nat.eq_or_lt_of_le hk1 with heq | hlt
        · exact absurd (heq ▸ hk3) (not_not_intro hmem)
        · omega
      · simpa [destLoop, hmem] using hmem

theorem freshDest_not_mem (vals : List String) (p : String) :
    freshDest vals p ∉ vals := by
  have h := destLoop_not_mem vals p (vals.length + 1) 1 (le_refl 1)
  rw [destCand_one] at h
  apply h
  obtain ⟨k, hk1, hk2, hk3⟩ := exists_free_cand vals p 1 (le_refl 1)
  exact ⟨k, hk1, by omega, hk3⟩

/-- Insertion-ordered association list modelling the Python
`bind_map: dict[Path, str]`. -/
abbrev BindMap := List (HostPath × String)

/-- Keys of the bind map (`bind_map.keys()`, insertion order). -/
def bmKeys (bm : BindMap) : List HostPath := bm.map Prod.fst

/-- Values of the bind map (`bind_map.values()`, insertion order). -/
def bmValues (bm : BindMap) : List String := bm.map Prod.snd

/-- `rp in bind_map` / `bind_map[rp]`. -/
def bmLookup : BindMap → HostPath → Option String
  | [], _ => none
  | e :: rest, rp => if e.1 = rp then some e.2 else bmLookup rest rp

/-- `ensure_bind(path, preferred)`: resolve the path; return the existing mount
if the resolved path is already bound, otherwise pick the first free name among
`preferred, preferred_2, preferred_3, ...` and insert it.  Returns the mount
name and the updated bind map. -/
def ensureBind (resolve : HostPath → HostPath) (bm : BindMap)
    (path : HostPath) (preferred : String) : String × BindMap :=
  let rp := resolve path
  match bmLookup bm rp with
  | some dest => (dest, bm)
  | none =>
      let dest := freshDest (bmValues bm) preferred
      (dest, bm ++ [(rp, dest)])

/-- Run a sequence of `ensure_bind` requests against a starting bind map. -/
def allocateFrom (resolve : HostPath → HostPath) :
    BindMap → List (HostPath × String) → BindMap
  | bm, [] => bm
  | bm, r :: reqs => allocateFrom resolve (ensureBind resolve bm r.1 r.2).2 reqs

/-- Run a sequence of `ensure_bind` requests against the empty bind map, as one
command build does. -/
def allocate (resolve : HostPath → HostPath)
    (reqs : List (HostPath × String)) : BindMap :=
  allocateFrom resolve [] reqs

theorem bmLookup_eq_none_iff (bm : BindMap) (rp : HostPath) :
    bmLookup bm rp = none ↔ rp ∉ bmKeys bm := by
  induction bm with
  | nil => simp [bmLookup, bmKeys]
  | cons e rest ih =>
      simp only [bmLookup, bmKeys, List.map_cons, List.mem_cons]
      by_cases he : e.1 = rp
      · simp [he]
      · have hne : ¬ rp = e.1 := fun hh => he hh.symm
        simp only [he, if_false, hne, false_or]
        simpa [bmKeys] using ih

theorem bmLookup_append_self (bm : BindMap) (rp : HostPath) (d : String)
    (h : bmLookup bm rp = none) : bmLookup (bm ++ [(rp, d)]) rp = some d := by
  induction bm with
  | nil => simp [bmLookup]
  | cons e rest ih =>
      by_cases he : e.1 = rp
      · simp [bmLookup, he] at h
      · simp only [bmLookup, he, if_false] at h
        simp only [List.cons_append, bmLookup, he, if_false]
        exact ih h

/-- The allocator invariant: no host path bound twice, no mount name used
twice. -/
def BindInv (bm : BindMap) : Prop := (bmKeys bm).Nodup ∧ (bmValues bm).Nodup

theorem ensureBind_inv (resolve : HostPath → HostPath) (bm : BindMap)
    (path : HostPath) (preferred : String) (h : BindInv bm) :
    BindInv (ensureBind resolve bm path preferred).2 := by
  obtain ⟨hk, hv⟩ := h
  cases hlook : bmLookup bm (resolve path) with
  | some d =>
      simp only [ensureBind, hlook]
      exact ⟨hk, hv⟩
  | none =>
      simp only [ensureBind, hlook]
      constructor
      · simp only [bmKeys, List.map_append, List.map_cons, List.map_nil]
        rw [List.nodup_append]
        refine ⟨hk, List.nodup_singleton _, ?_⟩
        intro x hx hx'
        simp only [List.mem_singleton] at hx'
        subst hx'
        exact (bmLookup_eq_none_iff bm (resolve path)).mp hlook hx
      · simp only [bmValues, List.map_append, List.map_cons, List.map_nil]
        rw [List.nodup_append]
        refine ⟨hv, List.nodup_singleton _, ?_⟩
        intro x hx hx'
        simp only [List.mem_singleton] at hx'
        subst hx'
        exact freshDest_not_mem (bmValues bm) preferred hx

theorem allocateFrom_inv (resolve : HostPath → HostPath)
    (reqs : List (HostPath × String)) :
    ∀ (bm : BindMap), BindInv bm → BindInv (allocateFrom resolve bm reqs) := by
  induction reqs with
  | nil => intro bm h; exact h
  | cons r reqs ih =>
      intro bm h
      exact ih _ (ensureBind_inv resolve bm r.1 r.2 h)

theorem allocate_inv (resolve : HostPath → HostPath)
    (reqs : List (HostPath × String)) : BindInv (allocate resolve reqs) :=
  allocateFrom_inv resolve reqs [] ⟨List.nodup_nil, List.nodup_nil⟩

/-- After any `ensure_bind` call, the resolved path is bound to the mount name
the call returned. -/
theorem ensureBind_lookup_after (resolve : HostPath → HostPath) (bm : BindMap)
    (path : HostPath) (preferred : String) :
    bmLookup (ensureBind resolve bm path preferred).2 (resolve path)
      = some (ensureBind resolve bm path preferred).1 := by
  cases hlook : bmLookup bm (resolve path) with
  | some d =>
      simp only [ensureBind, hlook]
  | none =>
      simp only [ensureBind, hlook]
      exact bmLookup_append_self bm (resolve path) _ hlook

/-- An `ensure_bind` request whose resolved path is already bound returns the
stored mount name and leaves the map unchanged. -/
theorem ensureBind_of_lookup_some (resolve : HostPath → HostPath)
    (bm : BindMap) (path : HostPath) (preferred d : String)
    (h : bmLookup bm (resolve path) = some d) :
    ensureBind resolve bm path preferred = (d, bm) := by
  simp only [ensureBind, h]

/-- Re-requesting a path (under any preferred name) returns the mount name of
the first request and does not change the bind map; more generally this holds
for any second path resolving to the same location. -/
theorem ensureBind_again (resolve : HostPath → HostPath) (bm : BindMap)
    (p₁ p₂ : HostPath) (pref₁ pref₂ : String)
    (h : resolve p₁ = resolve p₂) :
    ensureBind resolve (ensureBind resolve bm p₁ pref₁).2 p₂ pref₂
      = ((ensureBind resolve bm p₁ pref₁).1,
         (ensureBind resolve bm p₁ pref₁).2) := by
  apply ensureBind_of_lookup_some
  rw [← h]
  exact ensureBind_lookup_after resolve bm p₁ pref₁

/-! ### Command builders

`resolve` abstracts `Path.resolve()` and `fsExists` abstracts `Path.exists()`;
`runtime` is the container runtime binary found on the search path (the
`_resolve_container_runtime` result).  `Path.parent` is `List.dropLast` and
`Path.name` is the last component. -/

/-- One `--bind host:mount` pair per bind-map entry, in allocation order
(`for src, dst in bind_map.items(): cmd += ["--bind", f"{str(src)}:{dst}"]`). -/
def bindArgs (bm : BindMap) : List String :=
  bm.bind (fun e => ["--bind", pathStr e.1 ++ ":" ++ e.2])

/-- `generate_boltz_command` from `abcfold/boltz/run_boltz.py`. -/
def generateBoltzCommand (resolve : HostPath → HostPath) (runtime : String)
    (inputYaml outputDir : HostPath) (numberOfModels numRecycles seed : ℕ)
    (sifPath : Option HostPath) : List String :=
  let iy := resolve inputYaml
  let od := resolve outputDir
  match sifPath with
  | some sp =>
      let sif := resolve sp
      let r1 := ensureBind resolve [] iy.dropLast "/input"
      let r2 := ensureBind resolve r1.2 od "/output"
      [runtime, "exec", "--nv"]
        ++ bindArgs r2.2
        ++ [pathStr sif, "boltz", "predict",
            r1.1 ++ "/" ++ iy.getLastD "",
            "--out_dir", r2.1,
            "--override", "--write_full_pae", "--write_full_pde",
            "--diffusion_samples", Nat.repr numberOfModels,
            "--recycling_steps", Nat.repr numRecycles,
            "--seed", Nat.repr seed]
  | none =>
      ["boltz", "predict", pathStr iy,
       "--out_dir", pathStr od,
       "--override", "--write_full_pae", "--write_full_pde",
       "--diffusion_samples", Nat.repr numberOfModels,
       "--recycling_steps", Nat.repr numRecycles,
       "--seed", Nat.repr seed]

/-- `generate_boltz_test_command` from `abcfold/boltz/run_boltz.py`. -/
def generateBoltzTestCommand (resolve : HostPath → HostPath) (runtime : String)
    (sifPath : Option HostPath) : List String :=
  match sifPath with
  | some sp =>
      [runtime, "exec", "--nv", pathStr (resolve sp), "boltz", "predict", "--help"]
  | none => ["boltz", "predict", "--help"]

/-- `generate_chai_command` from `abcfold/chai1/run_chai1.py`.  The bare-mode
`assert not (use_templates_server and template_path)` is an `Except.error`;
`chaiExe` is `Path(__file__).parent / "chai.py"`. -/
def generateChaiCommand (resolve : HostPath → HostPath)
    (fsExists : HostPath → Bool) (runtime : String) (kalignAvailable : Bool)
    (chaiExe inputFasta msaDir : HostPath) (inputConstraints : Option HostPath)
    (outputDir : HostPath) (numberOfModels numRecycles seed : ℕ)
    (useTemplatesServer : Bool) (templateHitsPath : Option HostPath)
    (sifPath : Option HostPath) : Except String (List String) :=
  match sifPath with
  | some sp =>
      let sif := resolve sp
      let r1 := ensureBind resolve [] chaiExe.dropLast "/abcfold_chai"
      let r2 := ensureBind resolve r1.2 inputFasta.dropLast "/input"
      let r3 := ensureBind resolve r2.2 outputDir "/output"
      let rMsa : Option String × BindMap :=
        if fsExists msaDir then
          let r := ensureBind resolve r3.2 msaDir "/msa"
          (some r.1, r.2)
        else (none, r3.2)
      let rCon : Option String × BindMap :=
        match inputConstraints with
        | some cp =>
            if fsExists cp then
              let r := ensureBind resolve rMsa.2 cp.dropLast "/constraints"
              (some (r.1 ++ "/" ++ cp.getLastD ""), r.2)
            else (none, rMsa.2)
        | none => (none, rMsa.2)
      let rTmp : Option String × BindMap :=
        match templateHitsPath with
        | some tp =>
            if fsExists tp then
              let r := ensureBind resolve rCon.2 tp.dropLast "/templates"
              (some (r.1 ++ "/" ++ tp.getLastD ""), r.2)
            else (none, rCon.2)
        | none => (none, rCon.2)
      .ok ([runtime, "exec", "--nv"]
        ++ bindArgs rTmp.2
        ++ [pathStr sif, "python", r1.1 ++ "/chai.py", "fold",
            r2.1 ++ "/" ++ inputFasta.getLastD ""]
        ++ (match rMsa.1 with | some m => ["--msa-directory", m] | none => [])
        ++ (match rCon.1 with | some c => ["--constraint-path", c] | none => [])
        ++ ["--num-diffn-samples", Nat.repr numberOfModels,
            "--num-trunk-recycles", Nat.repr numRecycles,
            "--seed", Nat.repr seed]
        ++ (if useTemplatesServer then ["--use-templates-server"] else [])
        ++ (match rTmp.1 with | some t => ["--template-hits-path", t] | none => [])
        ++ [r3.1])
  | none =>
      let cmd0 := ["python", pathStr chaiExe, "fold", pathStr inputFasta]
        ++ (if fsExists msaDir then ["--msa-directory", pathStr msaDir] else [])
        ++ (match inputConstraints with
            | some cp =>
                if fsExists cp then ["--constraint-path", pathStr cp] else []
            | none => [])
        ++ ["--num-diffn-samples", Nat.repr numberOfModels]
        ++ ["--num-trunk-recycles", Nat.repr numRecycles]
        ++ ["--seed", Nat.repr seed]
      if useTemplatesServer && templateHitsPath.isSome then
        .error "Cannot specify both templates server and path"
      else
        .ok (cmd0
          ++ (if !kalignAvailable && (useTemplatesServer || templateHitsPath.isSome)
              then []
              else (if useTemplatesServer then ["--use-templates-server"] else [])
                ++ (match templateHitsPath with
                    | some tp => ["--template-hits-path", pathStr tp]
                    | none => []))
          ++ [pathStr outputDir])

/-- `generate_chai_test_command` from `abcfold/chai1/run_chai1.py`. -/
def generateChaiTestCommand (resolve : HostPath → HostPath) (runtime : String)
    (chaiExe : HostPath) (sifPath : Option HostPath) : List String :=
  match sifPath with
  | some sp =>
      [runtime, "exec", "--nv", "--bind",
       pathStr (resolve chaiExe.dropLast) ++ ":/abcfold_chai",
       pathStr (resolve sp), "python", "/abcfold_chai/chai.py", "fold", "--help"]
  | none => ["python", pathStr chaiExe, "fold", "--help"]

/-! ### Run drivers

A subprocess run is abstracted by a function from seed to its exit code,
captured stdout and captured stderr.  Side effects are recorded as events. -/

/-- `pat` matches at the head of `s` (step of Python's `in` on strings). -/
def strLead : List Char → List Char → Bool
  | [], _ => true
  | _ :: _, [] => false
  | a :: pat, b :: s => a = b && strLead pat s

/-- `pat` occurs somewhere in `s`. -/
def strHas (pat : List Char) : List Char → Bool
  | [] => strLead pat []
  | c :: rest => strLead pat (c :: rest) || strHas pat rest

/-- Python's substring test `pat in s`. -/
def strContains (s pat : String) : Bool := strHas pat.data s.data

/-- The literal out-of-memory marker scanned for in Boltz stdout. -/
def oomMarker : String := "WARNING: ran out of memory"

/-- Outcome of one subprocess: exit code, captured stdout, captured stderr. -/
structure SeedResult where
  returncode : Int
  stdout : String
  stderr : String
deriving DecidableEq

/-- Observable side effects of a run driver, in order of occurrence. -/
inductive Event where
  | writeYaml (path : String)
  | mkdir (path : String)
  | spawn (seed : ℕ) (cmd : List String)
  | writeLog (path : String) (content : String)
deriving DecidableEq

def Event.isMkdir : Event → Bool
  | .mkdir _ => true
  | _ => false

def Event.isSpawn : Event → Bool
  | .spawn _ _ => true
  | _ => false

def Event.isWriteLog : Event → Bool
  | .writeLog _ _ => true
  | _ => false

/-- The seeds of the spawn events of a trace, in order. -/
def spawnSeeds (evs : List Event) : List ℕ :=
  evs.filterMap (fun e => match e with | .spawn s _ => some s | _ => none)

/-- Static configuration of one `run_boltz` call (everything fixed before the
seed loop).  `tempDir` is the `tempfile.TemporaryDirectory` path and
`inputStem` is `input_json.stem`. -/
structure BoltzConfig where
  resolve : HostPath → HostPath
  runtime : String
  inputStem : String
  tempDir : HostPath
  outputDir : HostPath
  saveInput : Bool
  test : Bool
  numberOfModels : ℕ
  numRecycles : ℕ
  sifPath : Option HostPath

/-- `working_dir` of `run_boltz`: the output directory when `save_input`,
otherwise the temporary directory. -/
def boltzWorkingDir (cfg : BoltzConfig) : HostPath :=
  if cfg.saveInput then cfg.outputDir else cfg.tempDir

/-- The per-seed yaml file `working_dir / f"{input_json.stem}_seed-{seed}.yaml"`. -/
def boltzOutFile (cfg : BoltzConfig) (seed : ℕ) : HostPath :=
  boltzWorkingDir cfg ++ [cfg.inputStem ++ "_seed-" ++ Nat.repr seed ++ ".yaml"]

/-- The command one `run_boltz` loop iteration builds for a seed (the
`generate_boltz_command(...) if not test else generate_boltz_test_command(...)`
expression). -/
def boltzCmd (cfg : BoltzConfig) (seed : ℕ) : List String :=
  if cfg.test then generateBoltzTestCommand cfg.resolve cfg.runtime cfg.sifPath
  else generateBoltzCommand cfg.resolve cfg.runtime (boltzOutFile cfg seed)
    cfg.outputDir cfg.numberOfModels cfg.numRecycles seed cfg.sifPath

/-- Events every `run_boltz` iteration emits before inspecting the exit code:
the yaml write and the process spawn. -/
def boltzIterEvs (cfg : BoltzConfig) (seed : ℕ) : List Event :=
  [Event.writeYaml (pathStr (boltzOutFile cfg seed)),
   Event.spawn seed (boltzCmd cfg seed)]

/-- The path of the Boltz error log, `output_dir / "boltz_error.log"`. -/
def boltzLogPath (cfg : BoltzConfig) : String :=
  pathStr (cfg.outputDir ++ ["boltz_error.log"])

/-- The seed loop of `run_boltz`.  Per seed: write the per-seed yaml, build the
command, spawn it; on nonzero exit write `boltz_error.log` (captured stderr)
into the output directory and return `False` (with `stderr=PIPE`,
`proc.stderr` is always a (truthy) pipe object, so the log branch is always
taken); on zero exit with the out-of-memory marker in the captured stdout
return `False`; otherwise continue with the next seed. -/
def runBoltzSeeds (cfg : BoltzConfig) (exec : ℕ → SeedResult) :
    List ℕ → Bool × List Event
  | [] => (true, [])
  | seed :: rest =>
      let r := exec seed
      if r.returncode ≠ 0 then
        (false, boltzIterEvs cfg seed ++ [Event.writeLog (boltzLogPath cfg) r.stderr])
      else if strContains r.stdout oomMarker then
        (false, boltzIterEvs cfg seed)
      else
        let res := runBoltzSeeds cfg exec rest
        (res.1, boltzIterEvs cfg seed ++ res.2)

/-- `run_boltz` after input conversion: the seed loop (returns `True` when the
loop finishes without failure). -/
def runBoltz (cfg : BoltzConfig) (exec : ℕ → SeedResult) (seeds : List ℕ) :
    Bool × List Event :=
  runBoltzSeeds cfg exec seeds

/-- Static configuration of one `run_chai` call.  `dirExists` abstracts the
`chai_output_dir.exists()` query made at failure time in bare mode (the
subprocess itself may or may not have created the directory); in containerized
mode the driver has just run `mkdir(parents=True, exist_ok=True)` on it, so it
exists regardless of `dirExists`. -/
structure ChaiConfig where
  resolve : HostPath → HostPath
  fsExists : HostPath → Bool
  dirExists : HostPath → Bool
  runtime : String
  kalignAvailable : Bool
  chaiExe : HostPath
  outFasta : HostPath
  msaDir : HostPath
  outConstraints : Option HostPath
  outputDir : HostPath
  saveInput : Bool
  test : Bool
  numberOfModels : ℕ
  numRecycles : ℕ
  useTemplatesServer : Bool
  templateHitsPath : Option HostPath
  sifPath : Option HostPath

/-- The per-seed output directory `output_dir / f"chai_output_seed-{seed}"`. -/
def chaiSeedDir (cfg : ChaiConfig) (seed : ℕ) : HostPath :=
  cfg.outputDir ++ ["chai_output_seed-" ++ Nat.repr seed]

/-- The command one `run_chai` loop iteration builds for a seed (the
`generate_chai_command(...) if not test else generate_chai_test_command(...)`
expression). -/
def chaiCmd (cfg : ChaiConfig) (seed : ℕ) : Except String (List String) :=
  if cfg.test then
    .ok (generateChaiTestCommand cfg.resolve cfg.runtime cfg.chaiExe cfg.sifPath)
  else
    generateChaiCommand cfg.resolve cfg.fsExists cfg.runtime
      cfg.kalignAvailable cfg.chaiExe cfg.outFasta cfg.msaDir
      cfg.outConstraints (chaiSeedDir cfg seed) cfg.numberOfModels
      cfg.numRecycles seed cfg.useTemplatesServer cfg.templateHitsPath
      cfg.sifPath

/-- Whether an `Except` result is a success. -/
def isOkE : Except String (List String) → Bool
  | .ok _ => true
  | .error _ => false

/-- The seed loop of `run_chai`.  Per seed: in containerized mode create the
per-seed output directory, build the command (a raised `AssertionError`
propagates out as `Except.error`), spawn it; on nonzero exit write
`chai_error.log` (captured stderr) into the per-seed directory if it exists,
else into its parent, and return `False`; `run_chai` does not capture stdout
and performs no out-of-memory check. -/
def chaiMkEvs (cfg : ChaiConfig) (seed : ℕ) : List Event :=
  if cfg.sifPath.isSome then [Event.mkdir (pathStr (chaiSeedDir cfg seed))]
  else []

/-- The directory the error log goes into when the seed fails: the per-seed
output directory if it exists at failure time (in containerized mode the
driver itself just created it), else its parent. -/
def chaiLogDir (cfg : ChaiConfig) (seed : ℕ) : HostPath :=
  if cfg.sifPath.isSome || cfg.dirExists (chaiSeedDir cfg seed) then
    chaiSeedDir cfg seed
  else (chaiSeedDir cfg seed).dropLast

/-- The path of the Chai-1 error log for a failing seed. -/
def chaiLogPath (cfg : ChaiConfig) (seed : ℕ) : String :=
  pathStr (chaiLogDir cfg seed ++ ["chai_error.log"])

def runChaiSeeds (cfg : ChaiConfig) (exec : ℕ → SeedResult) :
    List ℕ → Except String (Bool × List Event)
  | [] => .ok (true, [])
  | seed :: rest =>
      match chaiCmd cfg seed with
      | .error e => .error e
      | .ok cmd =>
          let r := exec seed
          if r.returncode ≠ 0 then
            .ok (false, chaiMkEvs cfg seed ++ [Event.spawn seed cmd,
              Event.writeLog (chaiLogPath cfg seed) r.stderr])
          else
            match runChaiSeeds cfg exec rest with
            | .error e => .error e
            | .ok res => .ok (res.1, chaiMkEvs cfg seed ++ [Event.spawn seed cmd] ++ res.2)

/-- Events of `run_chai` before the seed loop: when `save_input`, the working
directory (= output directory) is created (`working_dir.mkdir(parents=True,
exist_ok=True)`). -/
def chaiInitEvs (cfg : ChaiConfig) : List Event :=
  if cfg.saveInput then [Event.mkdir (pathStr cfg.outputDir)] else []

/-- `run_chai` after input conversion: when `save_input` the working directory
(= output directory) is created first; then the seed loop runs. -/
def runChai (cfg : ChaiConfig) (exec : ℕ → SeedResult) (seeds : List ℕ) :
    Except String (Bool × List Event) :=
  match runChaiSeeds cfg exec seeds with
  | .error e => .error e
  | .ok res => .ok (res.1, chaiInitEvs cfg ++ res.2)

/-! ### Driver lemmas -/

theorem getLast?_append_right {α : Type} {l₂ : List α} (l₁ : List α) {a : α}
    (h : l₂.getLast? = some a) : (l₁ ++ l₂).getLast? = some a := by
  have hne : l₂ ≠ [] := by
    intro he
    rw [he] at h
    simp at h
  rw [List.getLast?_append_of_ne_nil l₁ hne, h]

theorem spawnSeeds_append (l₁ l₂ : List Event) :
    spawnSeeds (l₁ ++ l₂) = spawnSeeds l₁ ++ spawnSeeds l₂ :=
  List.filterMap_append l₁ l₂ _

theorem spawnSeeds_boltzIterEvs (cfg : BoltzConfig) (seed : ℕ) :
    spawnSeeds (boltzIterEvs cfg seed) = [seed] := rfl

/-- A "clean" Boltz seed: exit code 0 and no out-of-memory marker in stdout. -/
def boltzClean (exec : ℕ → SeedResult) (s : ℕ) : Prop :=
  (exec s).returncode = 0 ∧ strContains (exec s).stdout oomMarker = false

theorem runBoltzSeeds_cons_fail (cfg : BoltzConfig) (exec : ℕ → SeedResult)
    (s : ℕ) (rest : List ℕ) (hs : (exec s).returncode ≠ 0) :
    runBoltzSeeds cfg exec (s :: rest)
      = (false, boltzIterEvs cfg s
          ++ [Event.writeLog (boltzLogPath cfg) (exec s).stderr]) := by
  simp [runBoltzSeeds, hs]

theorem runBoltzSeeds_cons_oom (cfg : BoltzConfig) (exec : ℕ → SeedResult)
    (s : ℕ) (rest : List ℕ) (hs0 : (exec s).returncode = 0)
    (hoom : strContains (exec s).stdout oomMarker = true) :
    runBoltzSeeds cfg exec (s :: rest) = (false, boltzIterEvs cfg s) := by
  simp [runBoltzSeeds, hs0, hoom]

theorem runBoltzSeeds_cons_clean (cfg : BoltzConfig) (exec : ℕ → SeedResult)
    (s : ℕ) (rest : List ℕ) (h : boltzClean exec s) :
    runBoltzSeeds cfg exec (s :: rest)
      = ((runBoltzSeeds cfg exec rest).1,
         boltzIterEvs cfg s ++ (runBoltzSeeds cfg exec rest).2) := by
  simp [runBoltzSeeds, h.1, h.2]

theorem runBoltzSeeds_fail (cfg : BoltzConfig) (exec : ℕ → SeedResult)
    (s : ℕ) (post : List ℕ) :
    ∀ pre : List ℕ, (∀ x ∈ pre, boltzClean exec x) →
      (exec s).returncode ≠ 0 →
      (runBoltzSeeds cfg exec (pre ++ s :: post)).1 = false
      ∧ spawnSeeds (runBoltzSeeds cfg exec (pre ++ s :: post)).2 = pre ++ [s]
      ∧ (runBoltzSeeds cfg exec (pre ++ s :: post)).2.getLast?
          = some (Event.writeLog (boltzLogPath cfg) (exec s).stderr) := by
  intro pre
  induction pre with
  | nil =>
      intro _ hs
      rw [List.nil_append, runBoltzSeeds_cons_fail cfg exec s post hs]
      refine ⟨rfl, ?_, ?_⟩
      · rw [spawnSeeds_append, spawnSeeds_boltzIterEvs]
        rfl
      · exact getLast?_append_right _ rfl
  | cons p pre ih =>
      intro hpre hs
      have hrest := ih (fun x hx => hpre x (List.mem_cons_of_mem p hx)) hs
      rw [List.cons_append,
        runBoltzSeeds_cons_clean cfg exec p _ (hpre p (List.mem_cons_self p _))]
      refine ⟨hrest.1, ?_, ?_⟩
      · rw [spawnSeeds_append, spawnSeeds_boltzIterEvs, hrest.2.1]
        rfl
      · exact getLast?_append_right _ hrest.2.2

theorem runBoltzSeeds_oom (cfg : BoltzConfig) (exec : ℕ → SeedResult)
    (s : ℕ) (post : List ℕ) :
    ∀ pre : List ℕ, (∀ x ∈ pre, boltzClean exec x) →
      (exec s).returncode = 0 →
      strContains (exec s).stdout oomMarker = true →
      (runBoltzSeeds cfg exec (pre ++ s :: post)).1 = false
      ∧ spawnSeeds (runBoltzSeeds cfg exec (pre ++ s :: post)).2 = pre ++ [s] := by
  intro pre
  induction pre with
  | nil =>
      intro _ hs0 hoom
      rw [List.nil_append, runBoltzSeeds_cons_oom cfg exec s post hs0 hoom]
      exact ⟨rfl, rfl⟩
  | cons p pre ih =>
      intro hpre hs0 hoom
      have hrest := ih (fun x hx => hpre x (List.mem_cons_of_mem p hx)) hs0 hoom
      rw [List.cons_append,
        runBoltzSeeds_cons_clean cfg exec p _ (hpre p (List.mem_cons_self p _))]
      refine ⟨hrest.1, ?_⟩
      rw [spawnSeeds_append, spawnSeeds_boltzIterEvs, hrest.2]
      rfl

theorem runBoltzSeeds_no_mkdir (cfg : BoltzConfig) (exec : ℕ → SeedResult) :
    ∀ seeds : List ℕ, ∀ e ∈ (runBoltzSeeds cfg exec seeds).2,
      e.isMkdir = false := by
  intro seeds
  induction seeds with
  | nil => intro e he; simp [runBoltzSeeds] at he
  | cons p rest ih =>
      intro e he
      by_cases h0 : (exec p).returncode ≠ 0
      · rw [runBoltzSeeds_cons_fail cfg exec p rest h0] at he
        simp only [boltzIterEvs, List.cons_append, List.nil_append,
          List.mem_cons, List.not_mem_nil, or_false] at he
        rcases he with h | h | h <;> subst h <;> rfl
      · push_neg at h0
        by_cases hoom : strContains (exec p).stdout oomMarker = true
        · rw [runBoltzSeeds_cons_oom cfg exec p rest h0 hoom] at he
          simp only [boltzIterEvs, List.mem_cons, List.mem_singleton,
            List.not_mem_nil, or_false] at he
          rcases he with h | h <;> subst h <;> rfl
        · rw [runBoltzSeeds_cons_clean cfg exec p rest
            ⟨h0, Bool.eq_false_iff.mpr (fun hx => hoom hx)⟩] at he
          simp only [boltzIterEvs, List.cons_append, List.mem_cons,
            List.mem_append, List.nil_append] at he
          rcases he with h | h | h
          · subst h; rfl
          · subst h; rfl
          · exact ih e h

theorem isOkE_true_iff (e : Except String (List String)) :
    isOkE e = true ↔ ∃ c, e = .ok c := by
  cases e with
  | error msg => simp [isOkE]
  | ok c => simp [isOkE]

theorem chaiCmd_isOk_eq (cfg : ChaiConfig) (seed : ℕ) :
    isOkE (chaiCmd cfg seed)
      = (cfg.test || cfg.sifPath.isSome
          || !(cfg.useTemplatesServer && cfg.templateHitsPath.isSome)) := by
  by_cases ht : cfg.test
  · simp [chaiCmd, ht, isOkE]
  · cases hsif : cfg.sifPath with
    | some sp =>
        simp [chaiCmd, ht, hsif, generateChaiCommand, isOkE]
    | none =>
        by_cases hboth : cfg.useTemplatesServer && cfg.templateHitsPath.isSome
        · simp [chaiCmd, ht, hsif, generateChaiCommand, hboth, isOkE]
        · simp [chaiCmd, ht, hsif, generateChaiCommand, hboth, isOkE]

theorem chaiCmd_isOk_seed_indep (cfg : ChaiConfig) (a b : ℕ) :
    isOkE (chaiCmd cfg a) = isOkE (chaiCmd cfg b) := by
  rw [chaiCmd_isOk_eq, chaiCmd_isOk_eq]

theorem spawnSeeds_chaiMkEvs (cfg : ChaiConfig) (s : ℕ) :
    spawnSeeds (chaiMkEvs cfg s) = [] := by
  by_cases h : cfg.sifPath.isSome <;> simp [chaiMkEvs, h, spawnSeeds]

theorem runChaiSeeds_cons_fail (cfg : ChaiConfig) (exec : ℕ → SeedResult)
    (s : ℕ) (rest : List ℕ) {c : List String}
    (hcmd : chaiCmd cfg s = .ok c) (hs : (exec s).returncode ≠ 0) :
    runChaiSeeds cfg exec (s :: rest)
      = .ok (false, chaiMkEvs cfg s ++ [Event.spawn s c,
          Event.writeLog (chaiLogPath cfg s) (exec s).stderr]) := by
  simp [runChaiSeeds, hcmd, hs]

theorem runChaiSeeds_cons_clean (cfg : ChaiConfig) (exec : ℕ → SeedResult)
    (s : ℕ) (rest : List ℕ) {c : List String} {r : Bool × List Event}
    (hcmd : chaiCmd cfg s = .ok c) (hs0 : (exec s).returncode = 0)
    (hrest : runChaiSeeds cfg exec rest = .ok r) :
    runChaiSeeds cfg exec (s :: rest)
      = .ok (r.1, chaiMkEvs cfg s ++ [Event.spawn s c] ++ r.2) := by
  simp [runChaiSeeds, hcmd, hs0, hrest]

theorem runChaiSeeds_cons_error (cfg : ChaiConfig) (exec : ℕ → SeedResult)
    (s : ℕ) (rest : List ℕ) {msg : String}
    (hcmd : chaiCmd cfg s = .error msg) :
    runChaiSeeds cfg exec (s :: rest) = .error msg := by
  simp [runChaiSeeds, hcmd]

theorem runChaiSeeds_ok (cfg : ChaiConfig) (exec : ℕ → SeedResult)
    (hok : ∀ x : ℕ, isOkE (chaiCmd cfg x) = true) :
    ∀ seeds : List ℕ, ∃ r, runChaiSeeds cfg exec seeds = .ok r := by
  intro seeds
  induction seeds with
  | nil => exact ⟨(true, []), rfl⟩
  | cons s rest ih =>
      obtain ⟨c, hc⟩ := (isOkE_true_iff _).mp (hok s)
      by_cases hs : (exec s).returncode ≠ 0
      · exact ⟨_, runChaiSeeds_cons_fail cfg exec s rest hc hs⟩
      · push_neg at hs
        obtain ⟨r, hr⟩ := ih
        exact ⟨_, runChaiSeeds_cons_clean cfg exec s rest hc hs hr⟩

theorem runChaiSeeds_fail (cfg : ChaiConfig) (exec : ℕ → SeedResult)
    (s : ℕ) (post : List ℕ) :
    ∀ pre : List ℕ,
      (∀ x ∈ pre, (exec x).returncode = 0 ∧ isOkE (chaiCmd cfg x) = true) →
      isOkE (chaiCmd cfg s) = true → (exec s).returncode ≠ 0 →
      ∃ evs, runChaiSeeds cfg exec (pre ++ s :: post) = .ok (false, evs)
        ∧ spawnSeeds evs = pre ++ [s]
        ∧ evs.getLast?
            = some (Event.writeLog (chaiLogPath cfg s) (exec s).stderr) := by
  intro pre
  induction pre with
  | nil =>
      intro _ hsok hs
      obtain ⟨c, hc⟩ := (isOkE_true_iff _).mp hsok
      refine ⟨_, by rw [List.nil_append]; exact runChaiSeeds_cons_fail cfg exec s post hc hs, ?_, ?_⟩
      · rw [spawnSeeds_append, spawnSeeds_chaiMkEvs]
        rfl
      · exact getLast?_append_right _ rfl
  | cons p pre ih =>
      intro hpre hsok hs
      obtain ⟨hp0, hpok⟩ := hpre p (List.mem_cons_self p _)
      obtain ⟨cp, hcp⟩ := (isOkE_true_iff _).mp hpok
      obtain ⟨evs, heq, hsp, hlast⟩ :=
        ih (fun x hx => hpre x (List.mem_cons_of_mem p hx)) hsok hs
      refine ⟨chaiMkEvs cfg p ++ [Event.spawn p cp] ++ evs, ?_, ?_, ?_⟩
      · rw [List.cons_append]
        exact runChaiSeeds_cons_clean cfg exec p _ hcp hp0 heq
      · rw [spawnSeeds_append, spawnSeeds_append, spawnSeeds_chaiMkEvs, hsp]
        rfl
      · rw [List.append_assoc]
        exact getLast?_append_right _ (getLast?_append_right _ hlast)

theorem runChaiSeeds_allclean (cfg : ChaiConfig) (exec : ℕ → SeedResult) :
    ∀ seeds : List ℕ,
      (∀ x ∈ seeds, (exec x).returncode = 0 ∧ isOkE (chaiCmd cfg x) = true) →
      ∃ evs, runChaiSeeds cfg exec seeds = .ok (true, evs) := by
  intro seeds
  induction seeds with
  | nil => exact fun _ => ⟨[], rfl⟩
  | cons s rest ih =>
      intro hall
      obtain ⟨hs0, hsok⟩ := hall s (List.mem_cons_self s _)
      obtain ⟨c, hc⟩ := (isOkE_true_iff _).mp hsok
      obtain ⟨evs, hevs⟩ := ih (fun x hx => hall x (List.mem_cons_of_mem s hx))
      exact ⟨_, runChaiSeeds_cons_clean cfg exec s rest hc hs0 hevs⟩

theorem runChaiSeeds_mkdir (cfg : ChaiConfig) (exec : ℕ → SeedResult)
    (s : ℕ) (post : List ℕ) (hsif : cfg.sifPath.isSome = true) :
    ∀ pre : List ℕ,
      (∀ x ∈ pre, (exec x).returncode = 0 ∧ isOkE (chaiCmd cfg x) = true) →
      isOkE (chaiCmd cfg s) = true →
      ∃ b c evs₁ evs₂, runChaiSeeds cfg exec (pre ++ s :: post)
        = .ok (b, evs₁ ++ Event.mkdir (pathStr (chaiSeedDir cfg s))
            :: Event.spawn s c :: evs₂) := by
  intro pre
  induction pre with
  | nil =>
      intro _ hsok
      obtain ⟨c, hc⟩ := (isOkE_true_iff _).mp hsok
      have hmk : chaiMkEvs cfg s = [Event.mkdir (pathStr (chaiSeedDir cfg s))] := by
        simp [chaiMkEvs, hsif]
      by_cases hs : (exec s).returncode ≠ 0
      · refine ⟨false, c, [], [Event.writeLog (chaiLogPath cfg s) (exec s).stderr], ?_⟩
        rw [List.nil_append, runChaiSeeds_cons_fail cfg exec s post hc hs, hmk]
        rfl
      · push_neg at hs
        have hokall : ∀ x : ℕ, isOkE (chaiCmd cfg x) = true := by
          intro x
          rw [chaiCmd_isOk_seed_indep cfg x s]
          exact hsok
        obtain ⟨r, hr⟩ := runChaiSeeds_ok cfg exec hokall post
        refine ⟨r.1, c, [], r.2, ?_⟩
        rw [List.nil_append, runChaiSeeds_cons_clean cfg exec s post hc hs hr, hmk]
        rfl
  | cons p pre ih =>
      intro hpre hsok
      obtain ⟨hp0, hpok⟩ := hpre p (List.mem_cons_self p _)
      obtain ⟨cp, hcp⟩ := (isOkE_true_iff _).mp hpok
      obtain ⟨b, c, evs₁, evs₂, heq⟩ :=
        ih (fun x hx => hpre x (List.mem_cons_of_mem p hx)) hsok
      refine ⟨b, c, chaiMkEvs cfg p ++ [Event.spawn p cp] ++ evs₁, evs₂, ?_⟩
      rw [List.cons_append, runChaiSeeds_cons_clean cfg exec p _ hcp hp0 heq]
      simp

theorem runChai_of_seeds_ok (cfg : ChaiConfig) (exec : ℕ → SeedResult)
    (seeds : List ℕ) {r : Bool × List Event}
    (h : runChaiSeeds cfg exec seeds = .ok r) :
    runChai cfg exec seeds = .ok (r.1, chaiInitEvs cfg ++ r.2) := by
  simp [runChai, h]

theorem spawnSeeds_chaiInitEvs (cfg : ChaiConfig) :
    spawnSeeds (chaiInitEvs cfg) = [] := by
  by_cases h : cfg.saveInput <;> simp [chaiInitEvs, h, spawnSeeds]

/-! ### The claims -/

/-- C1: for every finite sequence of (host path, preferred mount name)
requests to the bind-path allocator, distinct resolved host paths receive
distinct mount names, and requesting an already-bound path again returns
exactly the mount name assigned the first time and adds nothing; hence the
mapping is injective in both directions (keys pairwise distinct, values
pairwise distinct). -/
theorem claim_C1 (resolve : HostPath → HostPath)
    (reqs : List (HostPath × String)) :
    (bmKeys (allocate resolve reqs)).Nodup
    ∧ (bmValues (allocate resolve reqs)).Nodup
    ∧ ∀ (p : HostPath) (pref pref' : String),
        ensureBind resolve (ensureBind resolve (allocate resolve reqs) p pref).2
            p pref'
          = ((ensureBind resolve (allocate resolve reqs) p pref).1,
             (ensureBind resolve (allocate resolve reqs) p pref).2) := by
  obtain ⟨hk, hv⟩ := allocate_inv resolve reqs
  exact ⟨hk, hv, fun p pref pref' =>
    ensureBind_again resolve (allocate resolve reqs) p p pref pref' rfl⟩

/-- C5: two syntactically different path spellings that resolve to the same
canonical filesystem location produce exactly one bind entry: the second
request returns the first request's mount name and leaves the bind map
unchanged. -/
theorem claim_C5 (resolve : HostPath → HostPath) (bm : BindMap)
    (p₁ p₂ : HostPath) (pref₁ pref₂ : String)
    (h : resolve p₁ = resolve p₂) :
    ensureBind resolve (ensureBind resolve bm p₁ pref₁).2 p₂ pref₂
      = ((ensureBind resolve bm p₁ pref₁).1,
         (ensureBind resolve bm p₁ pref₁).2) :=
  ensureBind_again resolve bm p₁ p₂ pref₁ pref₂ h

/-- Witness for C5 at the spec's own example: the spellings `./out` and
`out/../out` both canonicalising to `/abs/out` yield one bind entry. -/
theorem claim_C5_witness :
    ensureBind
        (fun p => if p = [".", "out"] ∨ p = ["out", "..", "out"]
          then ["", "abs", "out"] else p)
        (ensureBind
          (fun p => if p = [".", "out"] ∨ p = ["out", "..", "out"]
            then ["", "abs", "out"] else p)
          [] [".", "out"] "/output").2
        ["out", "..", "out"] "/output"
      = ((ensureBind
            (fun p => if p = [".", "out"] ∨ p = ["out", "..", "out"]
              then ["", "abs", "out"] else p)
            [] [".", "out"] "/output").1,
         (ensureBind
            (fun p => if p = [".", "out"] ∨ p = ["out", "..", "out"]
              then ["", "abs", "out"] else p)
            [] [".", "out"] "/output").2) :=
  claim_C5 _ [] [".", "out"] ["out", "..", "out"] "/output" "/output" (by decide)

/-- C9: an empty seed list makes both run drivers succeed vacuously: no
subprocess spawned, no error log written, overall result `True`. -/
theorem claim_C9 (cfgB : BoltzConfig) (execB : ℕ → SeedResult)
    (cfgC : ChaiConfig) (execC : ℕ → SeedResult) :
    runBoltz cfgB execB [] = (true, [])
    ∧ ∃ evs, runChai cfgC execC [] = .ok (true, evs)
        ∧ evs.all (fun e => !e.isSpawn && !e.isWriteLog) = true := by
  refine ⟨rfl, chaiInitEvs cfgC, ?_, ?_⟩
  · have h : runChaiSeeds cfgC execC [] = .ok (true, []) := rfl
    have := runChai_of_seeds_ok cfgC execC [] h
    simpa using this
  · by_cases h : cfgC.saveInput <;>
      simp [chaiInitEvs, h, Event.isSpawn, Event.isWriteLog]

/-- C2 counterexample: in containerized mode (`sif_path` supplied) the Chai-1
command builder does NOT fail when both `use_templates_server` and
`template_hits_path` are supplied: it returns a fully built command containing
both flags, and the run driver then spawns the subprocess. -/
theorem claim_C2_counterexample :
    isOkE (generateChaiCommand (fun p => p) (fun _ => true) "apptainer" true
        ["", "pkg", "chai.py"] ["", "w", "in.fasta"] ["", "w"] none
        ["", "out"] 5 10 42 true (some ["", "t", "hits.m8"])
        (some ["", "img.sif"])) = true
    ∧ (match generateChaiCommand (fun p => p) (fun _ => true) "apptainer" true
          ["", "pkg", "chai.py"] ["", "w", "in.fasta"] ["", "w"] none
          ["", "out"] 5 10 42 true (some ["", "t", "hits.m8"])
          (some ["", "img.sif"]) with
        | .ok c => c.contains "--use-templates-server"
            && c.contains "--template-hits-path"
        | .error _ => false) = true
    ∧ (match runChai ⟨fun p => p, fun _ => true, fun _ => false, "apptainer",
          true, ["", "pkg", "chai.py"], ["", "w", "in.fasta"], ["", "w"], none,
          ["", "out"], false, false, 5, 10, true, some ["", "t", "hits.m8"],
          some ["", "img.sif"]⟩ (fun _ => ⟨0, "", ""⟩) [1] with
        | .ok r => spawnSeeds r.2
        | .error _ => []) = [1] := by
  decide

/-- C2 (amended): only in bare mode (no container image) does supplying both
`use_templates_server` and `template_hits_path` make the Chai-1 command
builder fail (the `assert` raises before the command is fully constructed and
before any subprocess is spawned); in containerized mode no error is raised. -/
theorem claim_C2 (cfg : ChaiConfig) (exec : ℕ → SeedResult) (seed : ℕ)
    (rest : List ℕ) (hbare : cfg.sifPath = none)
    (huts : cfg.useTemplatesServer = true)
    (htp : cfg.templateHitsPath.isSome = true) (htest : cfg.test = false) :
    chaiCmd cfg seed = .error "Cannot specify both templates server and path"
    ∧ runChai cfg exec (seed :: rest)
        = .error "Cannot specify both templates server and path" := by
  have hcmd : chaiCmd cfg seed
      = .error "Cannot specify both templates server and path" := by
    simp [chaiCmd, htest, generateChaiCommand, hbare, huts, htp]
  refine ⟨hcmd, ?_⟩
  rw [runChai, runChaiSeeds_cons_error cfg exec seed rest hcmd]

/-- Witness for C2 at a concrete bare-mode configuration with both template
options supplied. -/
theorem claim_C2_witness :
    chaiCmd ⟨fun p => p, fun _ => true, fun _ => false, "apptainer", true,
        ["", "pkg", "chai.py"], ["", "w", "in.fasta"], ["", "w"], none,
        ["", "out"], false, false, 5, 10, true, some ["", "t", "hits.m8"],
        none⟩ 1
      = .error "Cannot specify both templates server and path"
    ∧ runChai ⟨fun p => p, fun _ => true, fun _ => false, "apptainer", true,
        ["", "pkg", "chai.py"], ["", "w", "in.fasta"], ["", "w"], none,
        ["", "out"], false, false, 5, 10, true, some ["", "t", "hits.m8"],
        none⟩ (fun _ => ⟨0, "", ""⟩) (1 :: [2])
      = .error "Cannot specify both templates server and path" :=
  claim_C2 _ (fun _ => ⟨0, "", ""⟩) 1 [2] rfl rfl rfl rfl

/-- C3 counterexample: a Chai-1 seed whose subprocess exits 0 with stdout
containing the literal out-of-memory marker still yields overall success —
`run_chai` does not capture stdout and has no out-of-memory check. -/
theorem claim_C3_counterexample :
    strContains "WARNING: ran out of memory" oomMarker = true
    ∧ (match runChai ⟨fun p => p, fun _ => true, fun _ => false, "apptainer",
          true, ["", "pkg", "chai.py"], ["", "w", "in.fasta"], ["", "w"], none,
          ["", "out"], false, false, 5, 10, false, none, none⟩
          (fun _ => ⟨0, "WARNING: ran out of memory", ""⟩) [1] with
        | .ok r => r.1
        | .error _ => false) = true := by
  decide

/-- C3 (amended): only the Boltz driver checks captured stdout for the
out-of-memory marker: a zero exit whose stdout contains
"WARNING: ran out of memory" fails the whole Boltz run; the Chai-1 driver does
not capture stdout and reports success whenever every seed exits 0. -/
theorem claim_C3 :
    (∀ (cfg : BoltzConfig) (exec : ℕ → SeedResult) (pre : List ℕ) (s : ℕ)
        (post : List ℕ), (∀ x ∈ pre, boltzClean exec x) →
      (exec s).returncode = 0 → strContains (exec s).stdout oomMarker = true →
      (runBoltz cfg exec (pre ++ s :: post)).1 = false)
    ∧ (∀ (cfg : ChaiConfig) (exec : ℕ → SeedResult) (seeds : List ℕ),
      (∀ x ∈ seeds, (exec x).returncode = 0 ∧ isOkE (chaiCmd cfg x) = true) →
      ∃ evs, runChai cfg exec seeds = .ok (true, evs)) := by
  constructor
  · intro cfg exec pre s post hpre hs0 hoom
    exact (runBoltzSeeds_oom cfg exec s post pre hpre hs0 hoom).1
  · intro cfg exec seeds hall
    obtain ⟨evs, hevs⟩ := runChaiSeeds_allclean cfg exec seeds hall
    exact ⟨chaiInitEvs cfg ++ evs, runChai_of_seeds_ok cfg exec seeds hevs⟩

/-- Witness for C3: a Boltz run whose only seed exits 0 with the marker in
stdout fails; a Chai-1 run whose only seed exits 0 succeeds. -/
theorem claim_C3_witness :
    (runBoltz ⟨fun p => p, "apptainer", "in", ["", "tmp"], ["", "out"], false,
        false, 5, 10, none⟩
      (fun _ => ⟨0, "x WARNING: ran out of memory y", ""⟩)
      ([] ++ 1 :: [])).1 = false
    ∧ ∃ evs, runChai ⟨fun p => p, fun _ => true, fun _ => false, "apptainer",
        true, ["", "pkg", "chai.py"], ["", "w", "in.fasta"], ["", "w"], none,
        ["", "out"], false, false, 5, 10, false, none, none⟩
        (fun _ => ⟨0, "", ""⟩) [5] = .ok (true, evs) :=
  ⟨claim_C3.1 _ _ [] 1 [] (fun x hx => absurd hx (List.not_mem_nil x))
      (by decide) (by decide),
   claim_C3.2 _ _ [5] (by decide)⟩

/-- C6: both run drivers are fail-fast: once a seed's subprocess exits
nonzero, no later seed is spawned and the whole run reports failure — the
spawn trace is exactly the clean prefix followed by the failing seed. -/
theorem claim_C6 :
    (∀ (cfg : BoltzConfig) (exec : ℕ → SeedResult) (pre : List ℕ) (s : ℕ)
        (post : List ℕ), (∀ x ∈ pre, boltzClean exec x) →
      (exec s).returncode ≠ 0 →
      (runBoltz cfg exec (pre ++ s :: post)).1 = false
      ∧ spawnSeeds (runBoltz cfg exec (pre ++ s :: post)).2 = pre ++ [s])
    ∧ (∀ (cfg : ChaiConfig) (exec : ℕ → SeedResult) (pre : List ℕ) (s : ℕ)
        (post : List ℕ),
      (∀ x ∈ pre, (exec x).returncode = 0 ∧ isOkE (chaiCmd cfg x) = true) →
      isOkE (chaiCmd cfg s) = true → (exec s).returncode ≠ 0 →
      ∃ evs, runChai cfg exec (pre ++ s :: post) = .ok (false, evs)
        ∧ spawnSeeds evs = pre ++ [s]) := by
  constructor
  · intro cfg exec pre s post hpre hs
    obtain ⟨h1, h2, _⟩ := runBoltzSeeds_fail cfg exec s post pre hpre hs
    exact ⟨h1, h2⟩
  · intro cfg exec pre s post hpre hsok hs
    obtain ⟨evs, heq, hsp, _⟩ := runChaiSeeds_fail cfg exec s post pre hpre hsok hs
    refine ⟨chaiInitEvs cfg ++ evs, runChai_of_seeds_ok cfg exec _ heq, ?_⟩
    rw [spawnSeeds_append, spawnSeeds_chaiInitEvs, hsp]
    rfl

/-- Witness for C6 at the spec's example: seeds `[1, 2, 3]` with seed 2
failing — seed 3 is never spawned, the run fails. -/
theorem claim_C6_witness :
    ((runBoltz ⟨fun p => p, "apptainer", "in", ["", "tmp"], ["", "out"], false,
        false, 5, 10, none⟩
        (fun n => if n = 2 then ⟨1, "", "boom"⟩ else ⟨0, "", ""⟩)
        ([1] ++ 2 :: [3])).1 = false
      ∧ spawnSeeds (runBoltz ⟨fun p => p, "apptainer", "in", ["", "tmp"],
          ["", "out"], false, false, 5, 10, none⟩
          (fun n => if n = 2 then ⟨1, "", "boom"⟩ else ⟨0, "", ""⟩)
          ([1] ++ 2 :: [3])).2 = [1] ++ [2])
    ∧ ∃ evs, runChai ⟨fun p => p, fun _ => true, fun _ => false, "apptainer",
          true, ["", "pkg", "chai.py"], ["", "w", "in.fasta"], ["", "w"], none,
          ["", "out"], false, false, 5, 10, false, none, none⟩
          (fun n => if n = 2 then ⟨1, "", "boom"⟩ else ⟨0, "", ""⟩)
          ([1] ++ 2 :: [3]) = .ok (false, evs)
        ∧ spawnSeeds evs = [1] ++ [2] :=
  ⟨claim_C6.1 _ _ [1] 2 [3]
      (by
        intro x hx
        rw [List.mem_singleton] at hx
        subst hx
        exact ⟨by decide, by decide⟩)
      (by decide),
   claim_C6.2 _ _ [1] 2 [3] (by decide) (by decide) (by decide)⟩

/-- C7: a seed whose subprocess exits nonzero makes the driver write an error
log whose content is exactly the captured stderr and report failure, for both
tools (the log is the last recorded side effect of the run). -/
theorem claim_C7 :
    (∀ (cfg : BoltzConfig) (exec : ℕ → SeedResult) (pre : List ℕ) (s : ℕ)
        (post : List ℕ), (∀ x ∈ pre, boltzClean exec x) →
      (exec s).returncode ≠ 0 →
      (runBoltz cfg exec (pre ++ s :: post)).1 = false
      ∧ (runBoltz cfg exec (pre ++ s :: post)).2.getLast?
          = some (Event.writeLog (boltzLogPath cfg) (exec s).stderr))
    ∧ (∀ (cfg : ChaiConfig) (exec : ℕ → SeedResult) (pre : List ℕ) (s : ℕ)
        (post : List ℕ),
      (∀ x ∈ pre, (exec x).returncode = 0 ∧ isOkE (chaiCmd cfg x) = true) →
      isOkE (chaiCmd cfg s) = true → (exec s).returncode ≠ 0 →
      ∃ evs, runChai cfg exec (pre ++ s :: post) = .ok (false, evs)
        ∧ evs.getLast?
            = some (Event.writeLog (chaiLogPath cfg s) (exec s).stderr)) := by
  constructor
  · intro cfg exec pre s post hpre hs
    obtain ⟨h1, _, h3⟩ := runBoltzSeeds_fail cfg exec s post pre hpre hs
    exact ⟨h1, h3⟩
  · intro cfg exec pre s post hpre hsok hs
    obtain ⟨evs, heq, _, hlast⟩ := runChaiSeeds_fail cfg exec s post pre hpre hsok hs
    exact ⟨chaiInitEvs cfg ++ evs, runChai_of_seeds_ok cfg exec _ heq,
      getLast?_append_right _ hlast⟩

/-- Witness for C7: single failing seed for each tool; the last side effect is
the error-log write carrying the captured stderr. -/
theorem claim_C7_witness :
    ((runBoltz ⟨fun p => p, "apptainer", "in", ["", "tmp"], ["", "out"], false,
        false, 5, 10, none⟩ (fun _ => ⟨1, "", "some stderr"⟩)
        ([] ++ 7 :: [])).1 = false
      ∧ (runBoltz ⟨fun p => p, "apptainer", "in", ["", "tmp"], ["", "out"],
          false, false, 5, 10, none⟩ (fun _ => ⟨1, "", "some stderr"⟩)
          ([] ++ 7 :: [])).2.getLast?
        = some (Event.writeLog
            (boltzLogPath ⟨fun p => p, "apptainer", "in", ["", "tmp"],
              ["", "out"], false, false, 5, 10, none⟩) "some stderr"))
    ∧ ∃ evs, runChai ⟨fun p => p, fun _ => true, fun _ => false, "apptainer",
          true, ["", "pkg", "chai.py"], ["", "w", "in.fasta"], ["", "w"], none,
          ["", "out"], false, false, 5, 10, false, none, none⟩
          (fun _ => ⟨1, "", "some stderr"⟩) ([] ++ 7 :: []) = .ok (false, evs)
        ∧ evs.getLast?
            = some (Event.writeLog
                (chaiLogPath ⟨fun p => p, fun _ => true, fun _ => false,
                  "apptainer", true, ["", "pkg", "chai.py"],
                  ["", "w", "in.fasta"], ["", "w"], none, ["", "out"], false,
                  false, 5, 10, false, none, none⟩ 7) "some stderr") :=
  ⟨claim_C7.1 _ _ [] 7 [] (fun x hx => absurd hx (List.not_mem_nil x))
      (by decide),
   claim_C7.2 _ _ [] 7 [] (by decide) (by decide) (by decide)⟩

theorem chaiSeedDir_dropLast (cfg : ChaiConfig) (s : ℕ) :
    (chaiSeedDir cfg s).dropLast = cfg.outputDir := by
  simp [chaiSeedDir]

/-- C10: a failing Chai-1 seed writes `chai_error.log` into the per-seed
output directory when that directory exists at failure time (in containerized
mode the driver just created it), and otherwise into its parent output
directory — in particular in bare mode with the per-seed directory absent, the
log lands in the parent. -/
theorem claim_C10 (cfg : ChaiConfig) (exec : ℕ → SeedResult) (pre : List ℕ)
    (s : ℕ) (post : List ℕ)
    (hpre : ∀ x ∈ pre, (exec x).returncode = 0 ∧ isOkE (chaiCmd cfg x) = true)
    (hsok : isOkE (chaiCmd cfg s) = true) (hs : (exec s).returncode ≠ 0) :
    ∃ evs, runChai cfg exec (pre ++ s :: post) = .ok (false, evs)
      ∧ evs.getLast?
          = some (Event.writeLog
              (pathStr ((if cfg.sifPath.isSome || cfg.dirExists (chaiSeedDir cfg s)
                  then chaiSeedDir cfg s else cfg.outputDir)
                ++ ["chai_error.log"])) (exec s).stderr)
      ∧ (cfg.sifPath = none → cfg.dirExists (chaiSeedDir cfg s) = false →
          evs.getLast?
            = some (Event.writeLog
                (pathStr (cfg.outputDir ++ ["chai_error.log"]))
                (exec s).stderr)) := by
  obtain ⟨evs, heq, _, hlast⟩ := runChaiSeeds_fail cfg exec s post pre hpre hsok hs
  have hdir : chaiLogDir cfg s
      = (if cfg.sifPath.isSome || cfg.dirExists (chaiSeedDir cfg s)
          then chaiSeedDir cfg s else cfg.outputDir) := by
    unfold chaiLogDir
    by_cases h : (cfg.sifPath.isSome || cfg.dirExists (chaiSeedDir cfg s)) = true
    · rw [if_pos h, if_pos h]
    · rw [if_neg h, if_neg h, chaiSeedDir_dropLast]
  have hlast' : (chaiInitEvs cfg ++ evs).getLast?
      = some (Event.writeLog
          (pathStr ((if cfg.sifPath.isSome || cfg.dirExists (chaiSeedDir cfg s)
              then chaiSeedDir cfg s else cfg.outputDir)
            ++ ["chai_error.log"])) (exec s).stderr) := by
    rw [← hdir]
    exact getLast?_append_right _ hlast
  refine ⟨chaiInitEvs cfg ++ evs, runChai_of_seeds_ok cfg exec _ heq, hlast', ?_⟩
  intro hnone hdx
  rw [hlast']
  rw [hnone]
  simp [hdx]

/-- Witness for C10: a bare-mode failing seed with the per-seed directory
absent — the log is written into the parent output directory. -/
theorem claim_C10_witness :
    ∃ evs, runChai ⟨fun p => p, fun _ => true, fun _ => false, "apptainer",
        true, ["", "pkg", "chai.py"], ["", "w", "in.fasta"], ["", "w"], none,
        ["", "out"], false, false, 5, 10, false, none, none⟩
        (fun _ => ⟨2, "", "err text"⟩) ([] ++ 3 :: []) = .ok (false, evs)
      ∧ evs.getLast?
          = some (Event.writeLog
              (pathStr ((if (none : Option HostPath).isSome
                  || (fun _ => false) (chaiSeedDir ⟨fun p => p, fun _ => true,
                      fun _ => false, "apptainer", true, ["", "pkg", "chai.py"],
                      ["", "w", "in.fasta"], ["", "w"], none, ["", "out"],
                      false, false, 5, 10, false, none, none⟩ 3)
                  then chaiSeedDir ⟨fun p => p, fun _ => true, fun _ => false,
                      "apptainer", true, ["", "pkg", "chai.py"],
                      ["", "w", "in.fasta"], ["", "w"], none, ["", "out"],
                      false, false, 5, 10, false, none, none⟩ 3
                  else ["", "out"])
                ++ ["chai_error.log"])) "err text")
      ∧ ((none : Option HostPath) = none
          → (fun _ => false) (chaiSeedDir ⟨fun p => p, fun _ => true,
              fun _ => false, "apptainer", true, ["", "pkg", "chai.py"],
              ["", "w", "in.fasta"], ["", "w"], none, ["", "out"], false,
              false, 5, 10, false, none, none⟩ 3) = false
          → evs.getLast?
            = some (Event.writeLog
                (pathStr (["", "out"] ++ ["chai_error.log"])) "err text")) :=
  claim_C10 _ _ [] 3 [] (by decide) (by decide) (by decide)

/-- C8 counterexample: a containerized Boltz run spawns its subprocess without
ever creating a directory — `run_boltz` never creates the output directory,
so the claim fails for the Boltz integration. -/
theorem claim_C8_counterexample :
    ((runBoltz ⟨fun p => p, "apptainer", "in", ["", "tmp"], ["", "out"], false,
        false, 5, 10, some ["", "img.sif"]⟩ (fun _ => ⟨0, "", ""⟩)
        [1]).2.all (fun e => !e.isMkdir) = true)
    ∧ ((runBoltz ⟨fun p => p, "apptainer", "in", ["", "tmp"], ["", "out"],
        false, false, 5, 10, some ["", "img.sif"]⟩ (fun _ => ⟨0, "", ""⟩)
        [1]).2.any Event.isSpawn = true) := by
  decide

/-- C8 (amended): only the Chai-1 integration creates its (per-seed) output
directory on disk before the spawn in containerized mode; the Boltz driver
never creates any directory. -/
theorem claim_C8 :
    (∀ (cfg : BoltzConfig) (exec : ℕ → SeedResult) (seeds : List ℕ),
      ∀ e ∈ (runBoltz cfg exec seeds).2, e.isMkdir = false)
    ∧ (∀ (cfg : ChaiConfig) (exec : ℕ → SeedResult) (pre : List ℕ) (s : ℕ)
        (post : List ℕ), cfg.sifPath.isSome = true →
      (∀ x ∈ pre, (exec x).returncode = 0 ∧ isOkE (chaiCmd cfg x) = true) →
      isOkE (chaiCmd cfg s) = true →
      ∃ b c evs₁ evs₂, runChai cfg exec (pre ++ s :: post)
        = .ok (b, evs₁ ++ Event.mkdir (pathStr (chaiSeedDir cfg s))
            :: Event.spawn s c :: evs₂)) := by
  constructor
  · exact fun cfg exec seeds => runBoltzSeeds_no_mkdir cfg exec seeds
  · intro cfg exec pre s post hsif hpre hsok
    obtain ⟨b, c, evs₁, evs₂, heq⟩ :=
      runChaiSeeds_mkdir cfg exec s post hsif pre hpre hsok
    refine ⟨b, c, chaiInitEvs cfg ++ evs₁, evs₂, ?_⟩
    rw [runChai_of_seeds_ok cfg exec _ heq]
    simp

/-- Witness for C8: a containerized Chai-1 run creates the per-seed output
directory immediately before the spawn. -/
theorem claim_C8_witness :
    ∃ b c evs₁ evs₂, runChai ⟨fun p => p, fun _ => true, fun _ => false,
        "apptainer", true, ["", "pkg", "chai.py"], ["", "w", "in.fasta"],
        ["", "w"], none, ["", "out"], false, false, 5, 10, false, none,
        some ["", "img.sif"]⟩ (fun _ => ⟨0, "", ""⟩) ([] ++ 1 :: [])
      = .ok (b, evs₁ ++ Event.mkdir (pathStr (chaiSeedDir ⟨fun p => p,
          fun _ => true, fun _ => false, "apptainer", true,
          ["", "pkg", "chai.py"], ["", "w", "in.fasta"], ["", "w"], none,
          ["", "out"], false, false, 5, 10, false, none,
          some ["", "img.sif"]⟩ 1)) :: Event.spawn 1 c :: evs₂) :=
  claim_C8.2 _ _ [] 1 [] (by decide) (by decide) (by decide)

/-! ### C4: structure of the containerized command lines -/

theorem bmLookup_some_mem (bm : BindMap) (rp : HostPath) {d : String}
    (h : bmLookup bm rp = some d) : rp ∈ bmKeys bm := by
  by_contra hmem
  rw [← bmLookup_eq_none_iff bm rp] at hmem
  rw [hmem] at h
  exact Option.noConfusion h

theorem bmKeys_ensureBind_super (resolve : HostPath → HostPath) (bm : BindMap)
    (path : HostPath) (preferred : String) :
    bmKeys bm ⊆ bmKeys (ensureBind resolve bm path preferred).2 := by
  cases hlook : bmLookup bm (resolve path) with
  | some d =>
      simp only [ensureBind, hlook]
      exact fun x hx => hx
  | none =>
      simp only [ensureBind, hlook]
      intro x hx
      simp only [bmKeys, List.map_append] at *
      exact List.mem_append_left _ hx

theorem bmKeys_ensureBind_subset (resolve : HostPath → HostPath)
    (bm : BindMap) (path : HostPath) (preferred : String) :
    bmKeys (ensureBind resolve bm path preferred).2
      ⊆ bmKeys bm ++ [resolve path] := by
  cases hlook : bmLookup bm (resolve path) with
  | some d =>
      simp only [ensureBind, hlook]
      exact fun x hx => List.mem_append_left _ hx
  | none =>
      simp only [ensureBind, hlook]
      intro x hx
      simpa [bmKeys] using hx

theorem mem_bmKeys_ensureBind (resolve : HostPath → HostPath) (bm : BindMap)
    (path : HostPath) (preferred : String) :
    resolve path ∈ bmKeys (ensureBind resolve bm path preferred).2 := by
  cases hlook : bmLookup bm (resolve path) with
  | some d =>
      simp only [ensureBind, hlook]
      exact bmLookup_some_mem bm (resolve path) hlook
  | none =>
      simp only [ensureBind, hlook]
      simp [bmKeys]

theorem allocateFrom_keys_super (resolve : HostPath → HostPath)
    (reqs : List (HostPath × String)) :
    ∀ bm : BindMap, bmKeys bm ⊆ bmKeys (allocateFrom resolve bm reqs) := by
  induction reqs with
  | nil => exact fun bm x hx => hx
  | cons r reqs ih =>
      intro bm x hx
      exact ih _ (bmKeys_ensureBind_super resolve bm r.1 r.2 hx)

theorem allocateFrom_keys_subset (resolve : HostPath → HostPath)
    (reqs : List (HostPath × String)) :
    ∀ bm : BindMap, bmKeys (allocateFrom resolve bm reqs)
      ⊆ bmKeys bm ++ reqs.map (fun q => resolve q.1) := by
  induction reqs with
  | nil =>
      intro bm x hx
      simpa using hx
  | cons r reqs ih =>
      intro bm x hx
      have h1 := ih (ensureBind resolve bm r.1 r.2).2 hx
      rw [List.mem_append] at h1
      rcases h1 with h1 | h1
      · have h2 := bmKeys_ensureBind_subset resolve bm r.1 r.2 h1
        rw [List.mem_append] at h2
        rcases h2 with h2 | h2
        · exact List.mem_append_left _ h2
        · apply List.mem_append_right
          simp only [List.map_cons, List.mem_cons]
          left
          simpa using h2
      · apply List.mem_append_right
        simp only [List.map_cons, List.mem_cons]
        right
        exact h1

theorem allocateFrom_mem_keys (resolve : HostPath → HostPath)
    (reqs : List (HostPath × String)) :
    ∀ bm : BindMap, ∀ q ∈ reqs,
      resolve q.1 ∈ bmKeys (allocateFrom resolve bm reqs) := by
  induction reqs with
  | nil => intro bm q hq; exact absurd hq (List.not_mem_nil q)
  | cons r reqs ih =>
      intro bm q hq
      rcases List.mem_cons.mp hq with hq | hq
      · subst hq
        exact allocateFrom_keys_super resolve reqs _
          (mem_bmKeys_ensureBind resolve bm q.1 q.2)
      · exact ih _ q hq

theorem allocate_keys_subset (resolve : HostPath → HostPath)
    (reqs : List (HostPath × String)) :
    bmKeys (allocate resolve reqs) ⊆ reqs.map (fun q => resolve q.1) := by
  intro x hx
  have := allocateFrom_keys_subset resolve reqs [] hx
  simpa [bmKeys] using this

theorem allocate_mem_keys (resolve : HostPath → HostPath)
    (reqs : List (HostPath × String)) :
    ∀ q ∈ reqs, resolve q.1 ∈ bmKeys (allocate resolve reqs) :=
  fun q hq => allocateFrom_mem_keys resolve reqs [] q hq

/-- The `ensure_bind` requests `generate_boltz_command` makes in containerized
mode (source order). -/
def boltzBindReqs (resolve : HostPath → HostPath)
    (inputYaml outputDir : HostPath) : List (HostPath × String) :=
  [((resolve inputYaml).dropLast, "/input"), (resolve outputDir, "/output")]

/-- The `ensure_bind` requests `generate_chai_command` makes in containerized
mode (source order; the optional ones are made only when the corresponding
path exists). -/
def chaiBindReqs (fsExists : HostPath → Bool) (chaiExe inputFasta msaDir : HostPath)
    (inputConstraints : Option HostPath) (outputDir : HostPath)
    (templateHitsPath : Option HostPath) : List (HostPath × String) :=
  [(chaiExe.dropLast, "/abcfold_chai"), (inputFasta.dropLast, "/input"),
   (outputDir, "/output")]
  ++ (if fsExists msaDir then [(msaDir, "/msa")] else [])
  ++ (match inputConstraints with
      | some cp => if fsExists cp then [(cp.dropLast, "/constraints")] else []
      | none => [])
  ++ (match templateHitsPath with
      | some tp => if fsExists tp then [(tp.dropLast, "/templates")] else []
      | none => [])

/-- C4: every containerized command both builders produce consists of the
runtime's `exec --nv` prefix, then the `--bind host:mount` pairs in allocation
order (one per bind-map entry), then the image path followed by the tool's own
invocation; the bind map has pairwise-distinct host paths and
pairwise-distinct mount names, binds exactly the resolved host paths the
command references (every request is bound, and every bound key comes from a
request), so there is exactly one bind pair per distinct resolved host path. -/
theorem claim_C4 :
    (∀ (resolve : HostPath → HostPath) (runtime : String) (iy od : HostPath)
        (n r s : ℕ) (sp : HostPath),
      (∃ tail, generateBoltzCommand resolve runtime iy od n r s (some sp)
        = [runtime, "exec", "--nv"]
          ++ bindArgs (allocate resolve (boltzBindReqs resolve iy od))
          ++ pathStr (resolve sp) :: tail)
      ∧ (bmKeys (allocate resolve (boltzBindReqs resolve iy od))).Nodup
      ∧ (bmValues (allocate resolve (boltzBindReqs resolve iy od))).Nodup
      ∧ (boltzBindReqs resolve iy od).map (fun q => resolve q.1)
          ⊆ bmKeys (allocate resolve (boltzBindReqs resolve iy od))
      ∧ bmKeys (allocate resolve (boltzBindReqs resolve iy od))
          ⊆ (boltzBindReqs resolve iy od).map (fun q => resolve q.1))
    ∧ (∀ (resolve : HostPath → HostPath) (fsExists : HostPath → Bool)
        (runtime : String) (kal : Bool) (chaiExe inputFasta msaDir : HostPath)
        (inputConstraints : Option HostPath) (outputDir : HostPath)
        (n r s : ℕ) (uts : Bool) (tp : Option HostPath) (sp : HostPath),
      (∃ tail, generateChaiCommand resolve fsExists runtime kal chaiExe
          inputFasta msaDir inputConstraints outputDir n r s uts tp (some sp)
        = .ok ([runtime, "exec", "--nv"]
            ++ bindArgs (allocate resolve (chaiBindReqs fsExists chaiExe
                inputFasta msaDir inputConstraints outputDir tp))
            ++ pathStr (resolve sp) :: tail))
      ∧ (bmKeys (allocate resolve (chaiBindReqs fsExists chaiExe inputFasta
          msaDir inputConstraints outputDir tp))).Nodup
      ∧ (bmValues (allocate resolve (chaiBindReqs fsExists chaiExe inputFasta
          msaDir inputConstraints outputDir tp))).Nodup
      ∧ (chaiBindReqs fsExists chaiExe inputFasta msaDir inputConstraints
          outputDir tp).map (fun q => resolve q.1)
          ⊆ bmKeys (allocate resolve (chaiBindReqs fsExists chaiExe inputFasta
              msaDir inputConstraints outputDir tp))
      ∧ bmKeys (allocate resolve (chaiBindReqs fsExists chaiExe inputFasta
          msaDir inputConstraints outputDir tp))
          ⊆ (chaiBindReqs fsExists chaiExe inputFasta msaDir inputConstraints
              outputDir tp).map (fun q => resolve q.1)) := by
  constructor
  · intro resolve runtime iy od n r s sp
    refine ⟨⟨_, rfl⟩, (allocate_inv resolve _).1, (allocate_inv resolve _).2,
      ?_, allocate_keys_subset resolve _⟩
    intro x hx
    rw [List.mem_map] at hx
    obtain ⟨q, hq, rfl⟩ := hx
    exact allocate_mem_keys resolve _ q hq
  · intro resolve fsExists runtime kal chaiExe inputFasta msaDir
      inputConstraints outputDir n r s uts tp sp
    refine ⟨?_, (allocate_inv resolve _).1, (allocate_inv resolve _).2,
      ?_, allocate_keys_subset resolve _⟩
    · rcases inputConstraints with _ | cp <;> rcases tp with _ | tp2 <;>
        cases hm : fsExists msaDir <;>
        first
          | (cases hc : fsExists cp <;> cases ht : fsExists tp2 <;>
              · simp only [generateChaiCommand, chaiBindReqs, allocate,
                  allocateFrom, hm, hc, ht, Bool.false_eq_true, if_true,
                  if_false, List.append_nil, List.append_assoc,
                  List.cons_append, List.nil_append]
                exact ⟨_, rfl⟩)
          | (cases hc : fsExists cp <;>
              · simp only [generateChaiCommand, chaiBindReqs, allocate,
                  allocateFrom, hm, hc, Bool.false_eq_true, if_true, if_false,
                  List.append_nil, List.append_assoc, List.cons_append,
                  List.nil_append]
                exact ⟨_, rfl⟩)
          | (cases ht : fsExists tp2 <;>
              · simp only [generateChaiCommand, chaiBindReqs, allocate,
                  allocateFrom, hm, ht, Bool.false_eq_true, if_true, if_false,
                  List.append_nil, List.append_assoc, List.cons_append,
                  List.nil_append]
                exact ⟨_, rfl⟩)
          | (simp only [generateChaiCommand, chaiBindReqs, allocate,
                allocateFrom, hm, Bool.false_eq_true, if_true, if_false,
                List.append_nil, List.append_assoc, List.cons_append,
                List.nil_append]
             exact ⟨_, rfl⟩)
    · intro x hx
      rw [List.mem_map] at hx
      obtain ⟨q, hq, rfl⟩ := hx
      exact allocate_mem_keys resolve _ q hq

/-- Witness for C4 at a concrete containerized Boltz build: the bind map of
the built command has pairwise-distinct host paths. -/
theorem claim_C4_witness :
    (bmKeys (allocate (fun p : HostPath => p)
        (boltzBindReqs (fun p => p) ["", "w", "in.yaml"] ["", "out"]))).Nodup :=
  (claim_C4.1 (fun p => p) "apptainer" ["", "w", "in.yaml"] ["", "out"]
    5 10 42 ["", "img.sif"]).2.1

end ABCFold
